import Mathlib

/-!
# leetcode-plist-scraper: a shallow embedding of `scraper.go`

The program is one `main` function: it checks its arguments, builds a GraphQL
request, sends it, parses the response, maps the questions to problems and
writes them to a file.  The embedding keeps that shape.

* Go `string` and `[]byte` values are Lean `String`s (sequences of Unicode
  scalar values, i.e. Go strings holding valid UTF-8).
* A Go slice is `Slice α`: either `nil` or a (possibly empty) backing list.
* A Go `error` is the `String` its `Error()` method returns.
* Library behaviour that the source does not fix (the non-ASCII part of the
  Unicode case table, the JSON string encoder, `json.Marshal` of the request,
  `http.NewRequest`, `json.Unmarshal`) is collected in `Lib`.
* Everything outside the process (the HTTP round trip, the file system) is an
  oracle in `World`; what `main` does to the outside is recorded, in order, in
  the `trace` of the `Run` it returns.
-/

set_option autoImplicit false
set_option maxRecDepth 4000

namespace Scraper

/-! ## Go slices -/

/-- A Go slice value: `nil`, or a non-nil slice with the given elements. -/
inductive Slice (α : Type) where
  | nil : Slice α
  | mk (elems : List α) : Slice α
  deriving DecidableEq, Repr

namespace Slice

variable {α : Type}

/-- The elements a `range` loop visits. -/
def toList : Slice α → List α
  | nil => []
  | mk l => l

/-- Go `len(s)`. -/
def len (s : Slice α) : Nat := s.toList.length

/-- Go `append(s, x)`: the result is never nil. -/
def append (s : Slice α) (x : α) : Slice α := mk (s.toList ++ [x])

/-- Go `make([]T, 0)`: a non-nil slice of length 0. -/
def make0 : Slice α := mk []

/-- Go `s[i]` for an index already known to be in range. -/
def index [Inhabited α] (s : Slice α) (i : Nat) : α := s.toList.getD i default

end Slice

/-! ## Data model (lines 14-48) -/

/-- One problem of the output file (`type Problem struct`). -/
structure Problem where
  ID : String
  Name : String
  Link : String
  Difficulty : String
  deriving DecidableEq, Repr, Inhabited

/-- Root object of the output file (`type ProblemSet struct`). -/
structure ProblemSet where
  Name : String
  Problems : Slice Problem
  deriving DecidableEq, Repr

/-- A Go value of type `interface{}` as it occurs in the request variables. -/
inductive Value where
  | int (n : Int) : Value
  | str (s : String) : Value
  | strs (l : Slice String) : Value
  | map (m : List (String × Value)) : Value

/-- The request body (`type GraphQLRequest struct`). -/
structure GraphQLRequest where
  Query : String
  Variables : List (String × Value)
  OperationName : String

/-- An element of `GraphQLResponse.Data.FavoriteQuestionList.Questions`. -/
structure Question where
  Difficulty : String
  Title : String
  TitleSlug : String
  QuestionFrontendId : String
  deriving DecidableEq, Repr, Inhabited

/-- The struct `GraphQLResponse.Data.FavoriteQuestionList`. -/
structure FavoriteQuestionList where
  Questions : Slice Question
  TotalLength : Int
  HasMore : Bool
  deriving DecidableEq, Repr

/-- The struct `GraphQLResponse.Data`. -/
structure ResponseData where
  FavoriteQuestionList : FavoriteQuestionList
  deriving DecidableEq, Repr

/-- An element of `GraphQLResponse.Errors`. -/
structure GraphQLError where
  Message : String
  deriving DecidableEq, Repr, Inhabited

/-- The parsed response (`type GraphQLResponse struct`). -/
structure GraphQLResponse where
  Data : ResponseData
  Errors : Slice GraphQLError
  deriving DecidableEq, Repr

/-- The zero value of `GraphQLResponse`, which `json.Unmarshal` starts from. -/
def GraphQLResponse.zero : GraphQLResponse :=
  { Data := { FavoriteQuestionList := { Questions := .nil, TotalLength := 0, HasMore := false } },
    Errors := .nil }

/-! ## Library functions used by `main` -/

/-- Go `unicode.ToLower`: ASCII letters are shifted by `'a' - 'A'`, other ASCII
runes are unchanged, and runes above `MaxASCII` go through the case table. -/
def unicode_ToLower (caseTable : Char → Char) (r : Char) : Char :=
  if r.toNat ≤ 0x7F then
    if 'A'.toNat ≤ r.toNat ∧ r.toNat ≤ 'Z'.toNat then Char.ofNat (r.toNat + ('a'.toNat - 'A'.toNat)) else r
  else caseTable r

/-- Go `strings.ToLower`: every rune mapped by `unicode.ToLower`. -/
def strings_ToLower (caseTable : Char → Char) (s : String) : String :=
  ⟨s.data.map (unicode_ToLower caseTable)⟩

/-- Scan of `strings.ReplaceAll` for a non-empty `old`: `skip` counts the
runes of a matched occurrence that are still to be dropped. -/
def replaceScan (old new : List Char) : Nat → List Char → List Char
  | _, [] => []
  | skip + 1, _ :: cs => replaceScan old new skip cs
  | 0, c :: cs =>
    if old.isPrefixOf (c :: cs) then new ++ replaceScan old new (old.length - 1) cs
    else c :: replaceScan old new 0 cs

/-- Go `strings.ReplaceAll(s, old, new)`: all non-overlapping instances of
`old`, found left to right, replaced by `new`; an empty `old` matches before
every rune and at the end. -/
def strings_ReplaceAll (s old new : String) : String :=
  if old = new then s
  else if old.data = [] then ⟨new.data ++ s.data.flatMap (fun c => c :: new.data)⟩
  else ⟨replaceScan old.data new.data 0 s.data⟩

/-- Go `%d` of an `int`. -/
def fmtInt (n : Int) : String := toString n

/-- The request handed to `client.Do` (the fields of `http.Request` in use). -/
structure HttpRequest where
  Method : String
  URL : String
  Header : List (String × String)
  Body : String
  deriving DecidableEq, Repr

/-- Go `req.Header.Set(key, value)` for a key in canonical form. -/
def HttpRequest.HeaderSet (req : HttpRequest) (key value : String) : HttpRequest :=
  { req with Header := req.Header.filter (fun kv => kv.1 != key) ++ [(key, value)] }

/-- What `client.Do` hands back: the status code and what `io.ReadAll` of the
body yields. -/
structure HttpResponse where
  StatusCode : Int
  Body : Except String String

/-- Library behaviour that the source relies on without fixing it. -/
structure Lib where
  /-- `unicode.To(LowerCase, r)` for runes above `MaxASCII`. -/
  caseTable : Char → Char
  /-- The JSON encoding of a Go string, quotes included. -/
  encodeString : String → String
  /-- `json.Marshal` of the request body. -/
  json_Marshal : GraphQLRequest → Except String String
  /-- `http.NewRequest(method, url, body)`. -/
  http_NewRequest : String → String → String → Except String HttpRequest
  /-- `json.Unmarshal(body, &graphQLResp)` on a zero `GraphQLResponse`. -/
  json_Unmarshal : String → Except String GraphQLResponse

/-- The world outside the process. -/
structure World where
  /-- `client.Do(req)`. -/
  clientDo : HttpRequest → Except String HttpResponse
  /-- `os.MkdirAll(path, perm)`: `none` is success. -/
  os_MkdirAll : String → Nat → Option String
  /-- `os.WriteFile(name, data, perm)`: `none` is success. -/
  os_WriteFile : String → String → Nat → Option String

/-! ## The program (lines 50-218) -/

/-- The message of the argument check (line 52). -/
def usage : String :=
  "Usage: go run scrape_leetcode.go <list-id> <name>\nExample: go run scrape_leetcode.go ajpcecv6 \"Blind 75\""

/-- The raw string literal `query` (lines 61-83). -/
def query : String :=
  "\n" ++
  "    query favoriteQuestionList($favoriteSlug: String!, $filter: FavoriteQuestionFilterInput, $filtersV2: QuestionFilterInput, $searchKeyword: String, $sortBy: QuestionSortByInput, $limit: Int, $skip: Int, $version: String = \"v2\") \x7b\n" ++
  "      favoriteQuestionList(\n" ++
  "        favoriteSlug: $favoriteSlug\n" ++
  "        filter: $filter\n" ++
  "        filtersV2: $filtersV2\n" ++
  "        searchKeyword: $searchKeyword\n" ++
  "        sortBy: $sortBy\n" ++
  "        limit: $limit\n" ++
  "        skip: $skip\n" ++
  "        version: $version\n" ++
  "      ) \x7b\n" ++
  "        questions \x7b\n" ++
  "          difficulty\n" ++
  "          questionFrontendId\n" ++
  "          title\n" ++
  "          titleSlug\n" ++
  "        \x7d\n" ++
  "        totalLength\n" ++
  "        hasMore\n" ++
  "      \x7d\n" ++
  "    \x7d\n" ++
  "    "

/-- A filter of `filtersV2` with an operator: an empty `[]string{}` under
`valuesKey` and the operator `"IS"`. -/
def isFilter (valuesKey : String) : Value :=
  .map [(valuesKey, .strs (.mk [])), ("operator", .str "IS")]

/-- The composite literal `reqBody` (lines 86-134). -/
def reqBody (listId : String) : GraphQLRequest :=
  { Query := query
    Variables :=
      [ ("skip", .int 0),
        ("limit", .int 100),
        ("favoriteSlug", .str listId),
        ("filtersV2", .map
          [ ("filterCombineType", .str "ALL"),
            ("statusFilter", isFilter "questionStatuses"),
            ("difficultyFilter", isFilter "difficulties"),
            ("languageFilter", isFilter "languageSlugs"),
            ("topicFilter", isFilter "topicSlugs"),
            ("acceptanceFilter", .map []),
            ("frequencyFilter", .map []),
            ("lastSubmittedFilter", .map []),
            ("publishedFilter", .map []),
            ("companyFilter", isFilter "companySlugs"),
            ("positionFilter", isFilter "positionSlugs"),
            ("premiumFilter", isFilter "premiumStatus") ]),
        ("searchKeyword", .str ""),
        ("sortBy", .map [("sortField", .str "CUSTOM"), ("sortOrder", .str "ASCENDING")]) ]
    OperationName := "favoriteQuestionList" }

/-- The request after the three `req.Header.Set` calls (lines 148-150). -/
def setHeaders (req : HttpRequest) : HttpRequest :=
  ((req.HeaderSet "Content-Type" "application/json").HeaderSet "User-Agent"
      "Mozilla/5.0 (Macintosh; Intel Mac OS X 10_15_7) AppleWebKit/537.36 (KHTML, like Gecko) Chrome/91.0.4472.114 Safari/537.36").HeaderSet
    "Referer" "https://leetcode.com"

/-- The body of the `range` loop (lines 190-195). -/
def toProblem (lib : Lib) (q : Question) : Problem :=
  { ID := q.TitleSlug
    Name := q.Title
    Link := "https://leetcode.com/problems/" ++ q.TitleSlug
    Difficulty := strings_ToLower lib.caseTable q.Difficulty }

/-- The value of `problemSet` after the loop (lines 183-197). -/
def buildProblemSet (lib : Lib) (name : String) (questions : Slice Question) : ProblemSet :=
  questions.toList.foldl
    (fun problemSet q => { problemSet with Problems := problemSet.Problems.append (toProblem lib q) })
    { Name := name, Problems := Slice.make0 }

/-- The value of `outputFile` (line 206). -/
def outputFile (lib : Lib) (name : String) : String :=
  "data/" ++ strings_ToLower lib.caseTable (strings_ReplaceAll name " " "-") ++ "-problems.json"

/-- One element of the `problems` array as `json.MarshalIndent` prints it. -/
def marshalProblem (enc : String → String) (p : Problem) : String :=
  "    \x7b\n" ++
  "      \"id\": " ++ enc p.ID ++ ",\n" ++
  "      \"name\": " ++ enc p.Name ++ ",\n" ++
  "      \"link\": " ++ enc p.Link ++ ",\n" ++
  "      \"difficulty\": " ++ enc p.Difficulty ++ "\n" ++
  "    \x7d"

/-- The `problems` value as `json.MarshalIndent` prints it: `null` for a nil
slice, `[]` for an empty one, one indented object per element otherwise. -/
def marshalProblems (enc : String → String) : Slice Problem → String
  | .nil => "null"
  | .mk [] => "[]"
  | .mk (p :: ps) => "[\n" ++ ",\n".intercalate ((p :: ps).map (marshalProblem enc)) ++ "\n  ]"

/-- Go `json.MarshalIndent(problemSet, "", "  ")` with the field names of the
struct tags; it has no failing case for this type. -/
def json_MarshalIndent (enc : String → String) (problemSet : ProblemSet) : Except String String :=
  .ok ("\x7b\n" ++
       "  \"name\": " ++ enc problemSet.Name ++ ",\n" ++
       "  \"problems\": " ++ marshalProblems enc problemSet.Problems ++ "\n" ++
       "\x7d")

/-- What the process does to the outside, in order. -/
inductive Effect where
  | stdout (s : String) : Effect
  | httpDo (req : HttpRequest) : Effect
  | mkdirAll (path : String) (perm : Nat) : Effect
  | writeFile (name data : String) (perm : Nat) : Effect
  | bodyClose : Effect
  deriving DecidableEq, Repr

/-- How the process ends: a normal return, or `log.Fatal` with a message. -/
inductive Exit where
  | ok : Exit
  | fatal (msg : String) : Exit
  deriving DecidableEq, Repr

/-- A complete run of the program. -/
structure Run where
  trace : List Effect
  exit : Exit
  deriving DecidableEq, Repr

/-- The debug output (lines 165-168): nothing for status 200, the status and
the raw body otherwise. -/
def diagnostics (StatusCode : Int) (body : String) : List Effect :=
  if StatusCode ≠ 200 then
    [Effect.stdout ("Response Status: " ++ fmtInt StatusCode ++ "\n"),
     Effect.stdout ("Response Body: " ++ body ++ "\n")]
  else []

/-- The function `main` (lines 50-218) on the argument vector `Args`. -/
def main (lib : Lib) (w : World) (Args : List String) : Run :=
  if Args.length ≠ 3 then
    { trace := [], exit := .fatal usage }
  else
    let listId := Args.getD 1 ""
    let name := Args.getD 2 ""
    let t := [Effect.stdout ("Fetching list: " ++ listId ++ "\n")]
    match lib.json_Marshal (reqBody listId) with
    | .error err => { trace := t, exit := .fatal ("Error marshaling request:" ++ err) }
    | .ok jsonBody =>
    match lib.http_NewRequest "POST" "https://leetcode.com/graphql" jsonBody with
    | .error err => { trace := t, exit := .fatal ("Error creating request:" ++ err) }
    | .ok req0 =>
    let req := setHeaders req0
    let t := t ++ [Effect.httpDo req]
    match w.clientDo req with
    | .error err => { trace := t, exit := .fatal ("Error making request:" ++ err) }
    | .ok resp =>
    match resp.Body with
    | .error err => { trace := t, exit := .fatal ("Error reading response:" ++ err) }
    | .ok body =>
    let t := t ++ diagnostics resp.StatusCode body
    match lib.json_Unmarshal body with
    | .error err => { trace := t, exit := .fatal ("Error parsing response:" ++ err) }
    | .ok graphQLResp =>
    if graphQLResp.Errors.len > 0 then
      { trace := t, exit := .fatal ("GraphQL error: " ++ (graphQLResp.Errors.index 0).Message) }
    else
    let problemSet := buildProblemSet lib name graphQLResp.Data.FavoriteQuestionList.Questions
    let t := t ++ [Effect.mkdirAll "data" 0o755]
    match w.os_MkdirAll "data" 0o755 with
    | some err => { trace := t, exit := .fatal ("Error creating directory:" ++ err) }
    | none =>
    match json_MarshalIndent lib.encodeString problemSet with
    | .error err => { trace := t, exit := .fatal ("Error marshaling output:" ++ err) }
    | .ok jsonData =>
    let t := t ++ [Effect.writeFile (outputFile lib name) jsonData 0o644]
    match w.os_WriteFile (outputFile lib name) jsonData 0o644 with
    | some err => { trace := t, exit := .fatal ("Error writing file:" ++ err) }
    | none =>
      { trace := t ++ [Effect.stdout ("Successfully scraped " ++ fmtInt problemSet.Problems.len ++
                          " problems and saved to " ++ outputFile lib name ++ "\n"),
                       Effect.bodyClose],
        exit := .ok }

/-! ## Vocabulary for the statements -/

/-- The status and the body that the run for list `listId` reads, when it gets
that far: the request is marshalled and created, `client.Do` answers, and
`io.ReadAll` succeeds (lines 136-162). -/
def response (lib : Lib) (w : World) (listId : String) : Option (Int × String) :=
  match lib.json_Marshal (reqBody listId) with
  | .error _ => none
  | .ok jsonBody =>
  match lib.http_NewRequest "POST" "https://leetcode.com/graphql" jsonBody with
  | .error _ => none
  | .ok req0 =>
  match w.clientDo (setHeaders req0) with
  | .error _ => none
  | .ok resp =>
  match resp.Body with
  | .error _ => none
  | .ok body => some (resp.StatusCode, body)

/-- The run for list `listId` reads a response with status `status` and body
`body`. -/
def Receives (lib : Lib) (w : World) (listId : String) (status : Int) (body : String) : Prop :=
  response lib w listId = some (status, body)

instance (lib : Lib) (w : World) (listId : String) (status : Int) (body : String) :
    Decidable (Receives lib w listId status body) :=
  inferInstanceAs (Decidable (response lib w listId = some (status, body)))

/-- The effect creates a directory or writes a file. -/
def Effect.touchesFiles : Effect → Bool
  | .mkdirAll _ _ => true
  | .writeFile _ _ _ => true
  | _ => false

/-- The `(name, data)` pairs of the `os.WriteFile` calls of a trace, in order. -/
def writes : List Effect → List (String × String)
  | [] => []
  | .writeFile name data _ :: t => (name, data) :: writes t
  | _ :: t => writes t

/-- The HTTP requests of a trace, in order. -/
def requests : List Effect → List HttpRequest
  | [] => []
  | .httpDo req :: t => req :: requests t
  | _ :: t => requests t

/-- The part of `main` from `json.Unmarshal` on (lines 170-217) as a run of
its own, for display name `name` and response body `body`. -/
def processBody (lib : Lib) (w : World) (name body : String) : Run :=
  match lib.json_Unmarshal body with
  | .error err => { trace := [], exit := .fatal ("Error parsing response:" ++ err) }
  | .ok graphQLResp =>
  if graphQLResp.Errors.len > 0 then
    { trace := [], exit := .fatal ("GraphQL error: " ++ (graphQLResp.Errors.index 0).Message) }
  else
  let problemSet := buildProblemSet lib name graphQLResp.Data.FavoriteQuestionList.Questions
  let t := [Effect.mkdirAll "data" 0o755]
  match w.os_MkdirAll "data" 0o755 with
  | some err => { trace := t, exit := .fatal ("Error creating directory:" ++ err) }
  | none =>
  match json_MarshalIndent lib.encodeString problemSet with
  | .error err => { trace := t, exit := .fatal ("Error marshaling output:" ++ err) }
  | .ok jsonData =>
  let t := t ++ [Effect.writeFile (outputFile lib name) jsonData 0o644]
  match w.os_WriteFile (outputFile lib name) jsonData 0o644 with
  | some err => { trace := t, exit := .fatal ("Error writing file:" ++ err) }
  | none =>
    { trace := t ++ [Effect.stdout ("Successfully scraped " ++ fmtInt problemSet.Problems.len ++
                        " problems and saved to " ++ outputFile lib name ++ "\n"),
                     Effect.bodyClose],
      exit := .ok }

/-- The same world with every response status replaced by `status`. -/
def World.withStatus (w : World) (status : Int) : World :=
  { w with clientDo := fun req =>
      match w.clientDo req with
      | .error err => .error err
      | .ok resp => .ok { resp with StatusCode := status } }

/-- File contents by path. -/
abbrev FS := String → Option String

/-- The file system after a successful `os.WriteFile(name, data, _)`. -/
def FS.write (fs : FS) (name data : String) : FS :=
  fun p => if p = name then some data else fs p

/-- The file contents after a run all of whose writes succeeded. -/
def fsAfter (trace : List Effect) (fs : FS) : FS :=
  (writes trace).foldl (fun fs nd => FS.write fs nd.1 nd.2) fs

/-- The space-to-hyphen map that the spec gives for the output path. -/
def spaceToHyphen (c : Char) : Char := if c = ' ' then '-' else c

/-! ## A concrete library and world for the examples -/

/-- A response body with one question. -/
def demoBody : String :=
  "\x7b\"data\":\x7b\"favoriteQuestionList\":\x7b\"questions\":[\x7b\"difficulty\":\"EASY\"," ++
  "\"questionFrontendId\":\"1\",\"title\":\"Two Sum\",\"titleSlug\":\"two-sum\"\x7d]," ++
  "\"totalLength\":1,\"hasMore\":false\x7d\x7d\x7d"

/-- What `json.Unmarshal` makes of `demoBody`. -/
def demoResponse : GraphQLResponse :=
  { Data := { FavoriteQuestionList :=
      { Questions := .mk [{ Difficulty := "EASY", Title := "Two Sum", TitleSlug := "two-sum",
                            QuestionFrontendId := "1" }],
        TotalLength := 1, HasMore := false } },
    Errors := .nil }

/-- The same questions as `demoBody`, with another count and `hasMore` set. -/
def demoBodyMore : String :=
  "\x7b\"data\":\x7b\"favoriteQuestionList\":\x7b\"questions\":[\x7b\"difficulty\":\"EASY\"," ++
  "\"questionFrontendId\":\"1\",\"title\":\"Two Sum\",\"titleSlug\":\"two-sum\"\x7d]," ++
  "\"totalLength\":75,\"hasMore\":true\x7d\x7d\x7d"

/-- What `json.Unmarshal` makes of `demoBodyMore`. -/
def demoResponseMore : GraphQLResponse :=
  { Data := { FavoriteQuestionList :=
      { Questions := .mk [{ Difficulty := "EASY", Title := "Two Sum", TitleSlug := "two-sum",
                            QuestionFrontendId := "1" }],
        TotalLength := 75, HasMore := true } },
    Errors := .nil }

/-- A response body with a GraphQL error and data next to it. -/
def demoErrorBody : String :=
  "\x7b\"errors\":[\x7b\"message\":\"list not found\"\x7d],\"data\":\x7b\"favoriteQuestionList\":" ++
  "\x7b\"questions\":[],\"totalLength\":0,\"hasMore\":false\x7d\x7d\x7d"

/-- What `json.Unmarshal` makes of `demoErrorBody`. -/
def demoErrorResponse : GraphQLResponse :=
  { Data := { FavoriteQuestionList := { Questions := .mk [], TotalLength := 0, HasMore := false } },
    Errors := .mk [{ Message := "list not found" }] }

/-- A library that knows the demo bodies and the empty object. -/
def demoLib : Lib :=
  { caseTable := fun c => c
    encodeString := fun s => "\"" ++ s ++ "\""
    json_Marshal := fun r => .ok r.OperationName
    http_NewRequest := fun method url body => .ok { Method := method, URL := url, Header := [], Body := body }
    json_Unmarshal := fun body =>
      if body = demoBody then .ok demoResponse
      else if body = demoBodyMore then .ok demoResponseMore
      else if body = demoErrorBody then .ok demoErrorResponse
      else if body = "\x7b\x7d" then .ok GraphQLResponse.zero
      else .error "invalid character" }

/-- A world that answers every request with the given status and body and in
which the file system calls succeed. -/
def demoWorld (status : Int) (body : String) : World :=
  { clientDo := fun _ => .ok { StatusCode := status, Body := .ok body }
    os_MkdirAll := fun _ _ => none
    os_WriteFile := fun _ _ _ => none }

/-- A world in which the call to `client.Do` fails. -/
def offlineWorld : World :=
  { clientDo := fun _ => .error "dial tcp: no route to host"
    os_MkdirAll := fun _ _ => none
    os_WriteFile := fun _ _ _ => none }

/-! ## JSON texts, for bodies that are JSON but do not fit `GraphQLResponse` -/

/-- A JSON value (numbers restricted to integers). -/
inductive Json where
  | null : Json
  | bool (b : Bool) : Json
  | num (n : Int) : Json
  | str (s : String) : Json
  | arr (elems : List Json) : Json
  | obj (fields : List (String × Json)) : Json

/-- A hexadecimal digit. -/
def hexDigit (n : Nat) : Char :=
  if n < 10 then Char.ofNat ('0'.toNat + n) else Char.ofNat ('a'.toNat + (n - 10))

/-- One character of a JSON string: the quote and the backslash escaped,
control characters as `\u00XX`, all others as they are. -/
def escapeChar (c : Char) : List Char :=
  if c = '"' then ['\\', '"']
  else if c = '\\' then ['\\', '\\']
  else if c.toNat < 0x20 then ['\\', 'u', '0', '0', hexDigit (c.toNat / 16), hexDigit (c.toNat % 16)]
  else [c]

/-- A JSON string literal. -/
def renderString (s : String) : String :=
  "\"" ++ ⟨s.data.flatMap escapeChar⟩ ++ "\""

mutual
/-- The compact JSON text of a value. -/
def Json.render : Json → String
  | .null => "null"
  | .bool b => if b then "true" else "false"
  | .num n => toString n
  | .str s => renderString s
  | .arr elems => "[" ++ renderElems elems ++ "]"
  | .obj fields => "\x7b" ++ renderFields fields ++ "\x7d"
/-- The elements of an array, separated by commas. -/
def renderElems : List Json → String
  | [] => ""
  | [j] => j.render
  | j :: js => j.render ++ "," ++ renderElems js
/-- The members of an object, separated by commas. -/
def renderFields : List (String × Json) → String
  | [] => ""
  | [(k, v)] => renderString k ++ ":" ++ v.render
  | (k, v) :: fs => renderString k ++ ":" ++ v.render ++ "," ++ renderFields fs
end

/-- The member `key` of a JSON object. -/
def Json.field : Json → String → Option Json
  | .obj fields, key => fields.lookup key
  | _, _ => none

/-- The length of the `errors` array of a JSON object, 0 when it has none. -/
def Json.errorsLen (j : Json) : Nat :=
  match j.field "errors" with
  | some (.arr elems) => elems.length
  | _ => 0

/-- A JSON value with one GraphQL error whose `data` member is a string. -/
def mistypedJson : Json :=
  .obj [("errors", .arr [.obj [("message", .str "list not found")]]), ("data", .str "oops")]

/-- The text of `mistypedJson`. -/
def mistypedBody : String :=
  "\x7b\"errors\":[\x7b\"message\":\"list not found\"\x7d],\"data\":\"oops\"\x7d"

/-- The text of the `*json.UnmarshalTypeError` for a JSON string met where the
struct field `data` is expected (the Go type of the field left out). -/
def mistypedError : String :=
  "json: cannot unmarshal string into Go struct field GraphQLResponse.data of type struct"

/-- The library `demoLib` extended to `mistypedBody`, on which `json.Unmarshal`
does what `encoding/json` does: a JSON string cannot be stored in the struct
`Data`, so the call returns an `UnmarshalTypeError` although the text is valid
JSON and its `errors` member fits. -/
def strictLib : Lib :=
  { demoLib with
    json_Unmarshal := fun body =>
      if body = mistypedBody then .error mistypedError else demoLib.json_Unmarshal body }

theorem demo_receives (listId : String) (status : Int) (body : String) :
    Receives demoLib (demoWorld status body) listId status body := rfl

/-- What `Receives` says about the library and the world. -/
theorem Receives.elim {lib : Lib} {w : World} {listId : String} {status : Int} {body : String}
    (h : Receives lib w listId status body) :
    ∃ jsonBody req0,
      lib.json_Marshal (reqBody listId) = .ok jsonBody ∧
      lib.http_NewRequest "POST" "https://leetcode.com/graphql" jsonBody = .ok req0 ∧
      w.clientDo (setHeaders req0) = .ok { StatusCode := status, Body := .ok body } := by
  unfold Receives response at h
  cases h1 : lib.json_Marshal (reqBody listId) with
  | error e => simp [h1] at h
  | ok jsonBody =>
    cases h2 : lib.http_NewRequest "POST" "https://leetcode.com/graphql" jsonBody with
    | error e => simp [h1, h2] at h
    | ok req0 =>
      cases h3 : w.clientDo (setHeaders req0) with
      | error e => simp [h1, h2, h3] at h
      | ok resp =>
        obtain ⟨st, rb⟩ := resp
        cases rb with
        | error e => simp [h1, h2, h3] at h
        | ok b =>
          simp [h1, h2, h3] at h
          obtain ⟨rfl, rfl⟩ := h
          exact ⟨jsonBody, req0, rfl, h2, h3⟩

theorem Receives.intro {lib : Lib} {w : World} {listId jsonBody : String} {req0 : HttpRequest}
    {status : Int} {body : String}
    (h1 : lib.json_Marshal (reqBody listId) = .ok jsonBody)
    (h2 : lib.http_NewRequest "POST" "https://leetcode.com/graphql" jsonBody = .ok req0)
    (h3 : w.clientDo (setHeaders req0) = .ok { StatusCode := status, Body := .ok body }) :
    Receives lib w listId status body := by
  simp [Receives, response, h1, h2, h3]

/-! ## Lemmas about the library functions and the loop -/

theorem replaceScan_space (l : List Char) :
    replaceScan [' '] ['-'] 0 l = l.map spaceToHyphen := by
  induction l with
  | nil => rfl
  | cons c cs ih =>
    by_cases hc : c = ' '
    · subst hc
      simp [replaceScan, spaceToHyphen, ih]
    · have hc2 : ¬ (' ' = c) := fun h => hc h.symm
      simp [replaceScan, spaceToHyphen, hc, hc2, ih]

theorem strings_ReplaceAll_space (name : String) :
    strings_ReplaceAll name " " "-" = ⟨name.data.map spaceToHyphen⟩ := by
  have h : (" " : String) ≠ "-" := by decide
  simp [strings_ReplaceAll, h, replaceScan_space]

theorem Slice.toList_mk {α : Type} (l : List α) : (Slice.mk l).toList = l := rfl

theorem foldl_append_problems (lib : Lib) (name : String) (acc : List Problem) (qs : List Question) :
    qs.foldl
        (fun (problemSet : ProblemSet) q =>
          { problemSet with Problems := problemSet.Problems.append (toProblem lib q) })
        { Name := name, Problems := .mk acc } =
      { Name := name, Problems := .mk (acc ++ qs.map (toProblem lib)) } := by
  induction qs generalizing acc with
  | nil => simp
  | cons q qs ih =>
    have h := ih (acc ++ [toProblem lib q])
    simpa [Slice.append, Slice.toList, List.foldl_cons] using h

theorem buildProblemSet_eq (lib : Lib) (name : String) (questions : Slice Question) :
    buildProblemSet lib name questions =
      { Name := name, Problems := .mk (questions.toList.map (toProblem lib)) } := by
  simp [buildProblemSet, Slice.make0, foldl_append_problems]

/-- The run once a response body has been read: the trace up to the parse
and everything after it, as in `main`. -/
theorem main_of_response (lib : Lib) (w : World) (prog listId name jsonBody : String)
    (req0 : HttpRequest) (status : Int) (body : String)
    (h1 : lib.json_Marshal (reqBody listId) = .ok jsonBody)
    (h2 : lib.http_NewRequest "POST" "https://leetcode.com/graphql" jsonBody = .ok req0)
    (h3 : w.clientDo (setHeaders req0) = .ok { StatusCode := status, Body := .ok body }) :
    main lib w [prog, listId, name] =
      (let t := [Effect.stdout ("Fetching list: " ++ listId ++ "\n"), Effect.httpDo (setHeaders req0)] ++
          diagnostics status body
       match lib.json_Unmarshal body with
       | .error err => { trace := t, exit := .fatal ("Error parsing response:" ++ err) }
       | .ok graphQLResp =>
       if graphQLResp.Errors.len > 0 then
         { trace := t, exit := .fatal ("GraphQL error: " ++ (graphQLResp.Errors.index 0).Message) }
       else
       let problemSet := buildProblemSet lib name graphQLResp.Data.FavoriteQuestionList.Questions
       let t := t ++ [Effect.mkdirAll "data" 0o755]
       match w.os_MkdirAll "data" 0o755 with
       | some err => { trace := t, exit := .fatal ("Error creating directory:" ++ err) }
       | none =>
       match json_MarshalIndent lib.encodeString problemSet with
       | .error err => { trace := t, exit := .fatal ("Error marshaling output:" ++ err) }
       | .ok jsonData =>
       let t := t ++ [Effect.writeFile (outputFile lib name) jsonData 0o644]
       match w.os_WriteFile (outputFile lib name) jsonData 0o644 with
       | some err => { trace := t, exit := .fatal ("Error writing file:" ++ err) }
       | none =>
         { trace := t ++ [Effect.stdout ("Successfully scraped " ++ fmtInt problemSet.Problems.len ++
                             " problems and saved to " ++ outputFile lib name ++ "\n"),
                          Effect.bodyClose],
           exit := .ok }) := by
  simp [main, h1, h2, h3]

theorem main_marshal_error (lib : Lib) (w : World) (prog listId name e : String)
    (h1 : lib.json_Marshal (reqBody listId) = .error e) :
    main lib w [prog, listId, name] =
      { trace := [Effect.stdout ("Fetching list: " ++ listId ++ "\n")],
        exit := .fatal ("Error marshaling request:" ++ e) } := by
  simp [main, h1]

theorem main_request_error (lib : Lib) (w : World) (prog listId name jsonBody e : String)
    (h1 : lib.json_Marshal (reqBody listId) = .ok jsonBody)
    (h2 : lib.http_NewRequest "POST" "https://leetcode.com/graphql" jsonBody = .error e) :
    main lib w [prog, listId, name] =
      { trace := [Effect.stdout ("Fetching list: " ++ listId ++ "\n")],
        exit := .fatal ("Error creating request:" ++ e) } := by
  simp [main, h1, h2]

theorem main_do_error (lib : Lib) (w : World) (prog listId name jsonBody : String)
    (req0 : HttpRequest) (e : String)
    (h1 : lib.json_Marshal (reqBody listId) = .ok jsonBody)
    (h2 : lib.http_NewRequest "POST" "https://leetcode.com/graphql" jsonBody = .ok req0)
    (h3 : w.clientDo (setHeaders req0) = .error e) :
    main lib w [prog, listId, name] =
      { trace := [Effect.stdout ("Fetching list: " ++ listId ++ "\n"), Effect.httpDo (setHeaders req0)],
        exit := .fatal ("Error making request:" ++ e) } := by
  simp [main, h1, h2, h3]

theorem main_read_error (lib : Lib) (w : World) (prog listId name jsonBody : String)
    (req0 : HttpRequest) (status : Int) (e : String)
    (h1 : lib.json_Marshal (reqBody listId) = .ok jsonBody)
    (h2 : lib.http_NewRequest "POST" "https://leetcode.com/graphql" jsonBody = .ok req0)
    (h3 : w.clientDo (setHeaders req0) = .ok { StatusCode := status, Body := .error e }) :
    main lib w [prog, listId, name] =
      { trace := [Effect.stdout ("Fetching list: " ++ listId ++ "\n"), Effect.httpDo (setHeaders req0)],
        exit := .fatal ("Error reading response:" ++ e) } := by
  simp [main, h1, h2, h3]

/-- The run once a response body has been read, split at the parse. -/
theorem main_eq_processBody (lib : Lib) (w : World) (prog listId name jsonBody : String)
    (req0 : HttpRequest) (status : Int) (body : String)
    (h1 : lib.json_Marshal (reqBody listId) = .ok jsonBody)
    (h2 : lib.http_NewRequest "POST" "https://leetcode.com/graphql" jsonBody = .ok req0)
    (h3 : w.clientDo (setHeaders req0) = .ok { StatusCode := status, Body := .ok body }) :
    main lib w [prog, listId, name] =
      { trace := [Effect.stdout ("Fetching list: " ++ listId ++ "\n"), Effect.httpDo (setHeaders req0)] ++
          diagnostics status body ++ (processBody lib w name body).trace,
        exit := (processBody lib w name body).exit } := by
  rw [main_of_response lib w prog listId name jsonBody req0 status body h1 h2 h3]
  unfold processBody
  cases lib.json_Unmarshal body with
  | error e => simp
  | ok resp =>
    by_cases h5 : resp.Errors.len > 0
    · simp [h5]
    · cases h6 : w.os_MkdirAll "data" 0o755 with
      | some e => simp [h5]
      | none =>
        simp only [h5, json_MarshalIndent, if_false]
        cases w.os_WriteFile _ _ _ <;> simp

theorem writes_append (a b : List Effect) : writes (a ++ b) = writes a ++ writes b := by
  induction a with
  | nil => rfl
  | cons e a ih => cases e <;> simp [writes, ih]

theorem writes_diagnostics (status : Int) (body : String) : writes (diagnostics status body) = [] := by
  unfold diagnostics
  split <;> rfl

theorem requests_append (a b : List Effect) : requests (a ++ b) = requests a ++ requests b := by
  induction a with
  | nil => rfl
  | cons e a ih => cases e <;> simp [requests, ih]

theorem requests_diagnostics (status : Int) (body : String) : requests (diagnostics status body) = [] := by
  unfold diagnostics
  split <;> rfl

theorem processBody_requests (lib : Lib) (w : World) (name body : String) :
    requests (processBody lib w name body).trace = [] := by
  unfold processBody
  cases lib.json_Unmarshal body with
  | error e => rfl
  | ok resp =>
    by_cases h5 : resp.Errors.len > 0
    · simp [h5, requests]
    · cases h6 : w.os_MkdirAll "data" 0o755 with
      | some e => simp [h5, requests]
      | none =>
        simp only [h5, json_MarshalIndent, if_false]
        cases w.os_WriteFile _ _ _ <;> simp [requests]

/-- What the part after the parse writes: nothing in a run that fails before
the write, else the serialized problem set of the parsed questions, to the
output path of the display name. -/
theorem processBody_writes (lib : Lib) (w : World) (name body : String) :
    (writes (processBody lib w name body).trace = [] ∧ (processBody lib w name body).exit ≠ .ok ∧
      ¬ (∃ resp, lib.json_Unmarshal body = .ok resp ∧ resp.Errors.len = 0 ∧
          w.os_MkdirAll "data" 0o755 = none)) ∨
    ∃ resp data, lib.json_Unmarshal body = .ok resp ∧ resp.Errors.len = 0 ∧
      w.os_MkdirAll "data" 0o755 = none ∧
      json_MarshalIndent lib.encodeString
        (buildProblemSet lib name resp.Data.FavoriteQuestionList.Questions) = .ok data ∧
      writes (processBody lib w name body).trace = [(outputFile lib name, data)] := by
  unfold processBody
  cases h4 : lib.json_Unmarshal body with
  | error e => left; simp [writes]
  | ok resp =>
    by_cases h5 : resp.Errors.len > 0
    · left
      have h5b : resp.Errors.len ≠ 0 := Nat.pos_iff_ne_zero.mp h5
      simp [h5, h5b, writes]
    · have h50 : resp.Errors.len = 0 := Nat.eq_zero_of_not_pos h5
      cases h6 : w.os_MkdirAll "data" 0o755 with
      | some e => left; simp [h5, writes]
      | none =>
        right
        refine ⟨resp, _, rfl, h50, rfl, rfl, ?_⟩
        simp only [h5, json_MarshalIndent, if_false]
        cases w.os_WriteFile _ _ _ <;> simp [writes, writes_append]

theorem FS.write_write (fs : FS) (name data : String) :
    FS.write (FS.write fs name data) name data = FS.write fs name data := by
  funext p
  simp only [FS.write]
  split <;> rfl

/-- A run that reads a response body writes what the part after the parse
writes, ends as it ends, and has sent exactly one request. -/
theorem main_of_receives (lib : Lib) (w : World) (prog listId name : String) (status : Int)
    (body : String) (hrecv : Receives lib w listId status body) :
    writes (main lib w [prog, listId, name]).trace = writes (processBody lib w name body).trace ∧
    (main lib w [prog, listId, name]).exit = (processBody lib w name body).exit ∧
    (requests (main lib w [prog, listId, name]).trace).length = 1 := by
  obtain ⟨jsonBody, req0, h1, h2, h3⟩ := hrecv.elim
  rw [main_eq_processBody lib w prog listId name jsonBody req0 status body h1 h2 h3]
  simp [writes_append, writes_diagnostics, writes, requests_append, requests_diagnostics, requests,
    processBody_requests]

/-- A run that returns normally has read a response body. -/
theorem receives_of_ok (lib : Lib) (w : World) (prog listId name : String)
    (hok : (main lib w [prog, listId, name]).exit = .ok) :
    ∃ status body, Receives lib w listId status body := by
  cases h1 : lib.json_Marshal (reqBody listId) with
  | error e => rw [main_marshal_error lib w prog listId name e h1] at hok; cases hok
  | ok jsonBody =>
    cases h2 : lib.http_NewRequest "POST" "https://leetcode.com/graphql" jsonBody with
    | error e => rw [main_request_error lib w prog listId name jsonBody e h1 h2] at hok; cases hok
    | ok req0 =>
      cases h3 : w.clientDo (setHeaders req0) with
      | error e => rw [main_do_error lib w prog listId name jsonBody req0 e h1 h2 h3] at hok; cases hok
      | ok resp =>
        obtain ⟨status, rb⟩ := resp
        cases rb with
        | error e => rw [main_read_error lib w prog listId name jsonBody req0 status e h1 h2 h3] at hok; cases hok
        | ok body => exact ⟨status, body, Receives.intro h1 h2 h3⟩

/-- A run that returns normally has made one write: the serialized problem
set of the parsed questions, to the output path of the display name. -/
theorem writes_of_ok (lib : Lib) (w : World) (prog listId name : String)
    (hok : (main lib w [prog, listId, name]).exit = .ok) :
    ∃ questions data,
      json_MarshalIndent lib.encodeString (buildProblemSet lib name questions) = .ok data ∧
      writes (main lib w [prog, listId, name]).trace = [(outputFile lib name, data)] := by
  obtain ⟨status, body, hrecv⟩ := receives_of_ok lib w prog listId name hok
  obtain ⟨hw, hx, _⟩ := main_of_receives lib w prog listId name status body hrecv
  rw [hx] at hok
  rw [hw]
  rcases processBody_writes lib w name body with ⟨_, x, _⟩ | ⟨resp, data, _, _, _, m, e⟩
  · exact absurd hok x
  · exact ⟨_, data, m, e⟩

/-- Every request a run sends is the marshalled `reqBody` of its list
identifier, posted to the GraphQL endpoint with the three headers set. -/
theorem requests_main (lib : Lib) (w : World) (prog listId name : String) (req : HttpRequest)
    (hreq : req ∈ requests (main lib w [prog, listId, name]).trace) :
    ∃ jsonBody req0, lib.json_Marshal (reqBody listId) = .ok jsonBody ∧
      lib.http_NewRequest "POST" "https://leetcode.com/graphql" jsonBody = .ok req0 ∧
      req = setHeaders req0 := by
  cases h1 : lib.json_Marshal (reqBody listId) with
  | error e =>
    rw [main_marshal_error lib w prog listId name e h1] at hreq
    simp [requests] at hreq
  | ok jsonBody =>
    cases h2 : lib.http_NewRequest "POST" "https://leetcode.com/graphql" jsonBody with
    | error e =>
      rw [main_request_error lib w prog listId name jsonBody e h1 h2] at hreq
      simp [requests] at hreq
    | ok req0 =>
      refine ⟨jsonBody, req0, rfl, h2, ?_⟩
      cases h3 : w.clientDo (setHeaders req0) with
      | error e =>
        rw [main_do_error lib w prog listId name jsonBody req0 e h1 h2 h3] at hreq
        simpa [requests] using hreq
      | ok resp =>
        obtain ⟨status, rb⟩ := resp
        cases rb with
        | error e =>
          rw [main_read_error lib w prog listId name jsonBody req0 status e h1 h2 h3] at hreq
          simpa [requests] using hreq
        | ok body =>
          rw [main_eq_processBody lib w prog listId name jsonBody req0 status body h1 h2 h3] at hreq
          simpa [requests, requests_append, requests_diagnostics, processBody_requests] using hreq

theorem usage_head : usage.data.head? = some 'U' := by rfl

theorem fatal_ne_usage (tag err : String) (h : tag.data.head? ≠ none) (h2 : tag.data.head? ≠ some 'U') :
    Exit.fatal (tag ++ err) ≠ Exit.fatal usage := by
  intro heq
  have hs : tag ++ err = usage := by injection heq
  have hd := congrArg (fun s => s.data.head?) hs
  simp only [String.data_append, usage_head] at hd
  cases htd : tag.data with
  | nil => simp [htd] at h
  | cons c cs =>
    rw [htd] at hd h2
    simp at hd h2
    exact h2 hd

/-- The writes of any run with three arguments: none, or one to the output
path of the display name; a run that returns normally has made that write. -/
theorem writes_main (lib : Lib) (w : World) (prog listId name : String) :
    (writes (main lib w [prog, listId, name]).trace = [] ∧ (main lib w [prog, listId, name]).exit ≠ .ok) ∨
    ∃ data, writes (main lib w [prog, listId, name]).trace = [(outputFile lib name, data)] := by
  cases h1 : lib.json_Marshal (reqBody listId) with
  | error e => left; simp [main, h1, writes]
  | ok jsonBody =>
    cases h2 : lib.http_NewRequest "POST" "https://leetcode.com/graphql" jsonBody with
    | error e => left; simp [main, h1, h2, writes]
    | ok req0 =>
      cases h3 : w.clientDo (setHeaders req0) with
      | error e => left; simp [main, h1, h2, h3, writes]
      | ok resp =>
        obtain ⟨status, rb⟩ := resp
        cases rb with
        | error e => left; simp [main, h1, h2, h3, writes]
        | ok body =>
          rw [main_of_response lib w prog listId name jsonBody req0 status body h1 h2 h3]
          cases h4 : lib.json_Unmarshal body with
          | error e => left; simp [writes, writes_append, writes_diagnostics]
          | ok resp =>
            by_cases h5 : resp.Errors.len > 0
            · left; simp [h5, writes, writes_append, writes_diagnostics]
            · cases h6 : w.os_MkdirAll "data" 0o755 with
              | some e => left; simp [h5, h6, writes, writes_append, writes_diagnostics]
              | none =>
                right
                simp only [h5, h6, json_MarshalIndent]
                cases w.os_WriteFile _ _ _ <;>
                  simp [writes, writes_append, writes_diagnostics]

/-! ## The claims -/

/-- C1: when a response without GraphQL errors is parsed and the output
directory can be created, the file written holds the serialization of a
ProblemSet with exactly as many problems as there are questions, in the same
order, and problem `i` has id = the slug of question `i`, name = its title,
link = "https://leetcode.com/problems/" followed by the slug, and difficulty =
the lowercased difficulty of that question. -/
theorem problems_mirror_questions (lib : Lib) (w : World) (prog listId name : String)
    (status : Int) (body : String) (resp : GraphQLResponse)
    (hrecv : Receives lib w listId status body)
    (hparse : lib.json_Unmarshal body = .ok resp)
    (herr : resp.Errors.len = 0)
    (hmk : w.os_MkdirAll "data" 0o755 = none) :
    ∃ problemSet jsonData,
      problemSet = buildProblemSet lib name resp.Data.FavoriteQuestionList.Questions ∧
      json_MarshalIndent lib.encodeString problemSet = .ok jsonData ∧
      Effect.writeFile (outputFile lib name) jsonData 0o644 ∈ (main lib w [prog, listId, name]).trace ∧
      problemSet.Problems.len = resp.Data.FavoriteQuestionList.Questions.len ∧
      ∀ i, i < resp.Data.FavoriteQuestionList.Questions.len →
        (problemSet.Problems.index i).ID = (resp.Data.FavoriteQuestionList.Questions.index i).TitleSlug ∧
        (problemSet.Problems.index i).Name = (resp.Data.FavoriteQuestionList.Questions.index i).Title ∧
        (problemSet.Problems.index i).Link =
          "https://leetcode.com/problems/" ++ (resp.Data.FavoriteQuestionList.Questions.index i).TitleSlug ∧
        (problemSet.Problems.index i).Difficulty =
          strings_ToLower lib.caseTable (resp.Data.FavoriteQuestionList.Questions.index i).Difficulty := by
  obtain ⟨jsonBody, req0, h1, h2, h3⟩ := hrecv.elim
  refine ⟨_, _, rfl, rfl, ?_, ?_, ?_⟩
  · rw [main_of_response lib w prog listId name jsonBody req0 status body h1 h2 h3]
    simp only [hparse, herr, hmk, json_MarshalIndent]
    cases w.os_WriteFile _ _ _ <;> simp
  · simp [buildProblemSet_eq, Slice.len, Slice.toList_mk]
  · intro i hi
    have hi2 : i < resp.Data.FavoriteQuestionList.Questions.toList.length := hi
    simp only [buildProblemSet_eq, Slice.index, Slice.toList_mk, List.getD_eq_getElem?_getD,
      List.getElem?_map, List.getElem?_eq_getElem hi2, Option.map_some', Option.getD_some, toProblem,
      and_self]

theorem problems_mirror_questions_witness :
    ∃ problemSet jsonData,
      problemSet = buildProblemSet demoLib "Blind 75" demoResponse.Data.FavoriteQuestionList.Questions ∧
      json_MarshalIndent demoLib.encodeString problemSet = .ok jsonData ∧
      Effect.writeFile (outputFile demoLib "Blind 75") jsonData 0o644 ∈
        (main demoLib (demoWorld 200 demoBody) ["scraper", "ajpcecv6", "Blind 75"]).trace ∧
      problemSet.Problems.len = demoResponse.Data.FavoriteQuestionList.Questions.len ∧
      ∀ i, i < demoResponse.Data.FavoriteQuestionList.Questions.len →
        (problemSet.Problems.index i).ID = (demoResponse.Data.FavoriteQuestionList.Questions.index i).TitleSlug ∧
        (problemSet.Problems.index i).Name = (demoResponse.Data.FavoriteQuestionList.Questions.index i).Title ∧
        (problemSet.Problems.index i).Link =
          "https://leetcode.com/problems/" ++ (demoResponse.Data.FavoriteQuestionList.Questions.index i).TitleSlug ∧
        (problemSet.Problems.index i).Difficulty =
          strings_ToLower demoLib.caseTable (demoResponse.Data.FavoriteQuestionList.Questions.index i).Difficulty :=
  problems_mirror_questions demoLib (demoWorld 200 demoBody) "scraper" "ajpcecv6" "Blind 75" 200 demoBody
    demoResponse (demo_receives _ _ _) rfl rfl rfl

/-- C2: the output path is "data/" ++ lower(replace(name)) ++ "-problems.json",
where replace turns every space into a hyphen; whatever the list identifier
and the world (so whatever the remote response), a run writes to no other
path, and a run that returns normally has written to that path. -/
theorem output_path_of_name (lib : Lib) (w : World) (prog listId name : String) :
    outputFile lib name =
        "data/" ++ strings_ToLower lib.caseTable ⟨name.data.map spaceToHyphen⟩ ++ "-problems.json" ∧
    (∀ nd, nd ∈ writes (main lib w [prog, listId, name]).trace → nd.1 = outputFile lib name) ∧
    ((main lib w [prog, listId, name]).exit = .ok →
      ∃ data, writes (main lib w [prog, listId, name]).trace = [(outputFile lib name, data)]) := by
  refine ⟨?_, ?_, ?_⟩
  · simp [outputFile, strings_ReplaceAll_space]
  · intro nd hnd
    rcases writes_main lib w prog listId name with ⟨h, _⟩ | ⟨data, h⟩
    · rw [h] at hnd; simp at hnd
    · rw [h] at hnd; simp at hnd; rw [hnd]
  · intro hok
    rcases writes_main lib w prog listId name with ⟨_, h⟩ | h
    · exact absurd hok h
    · exact h

theorem output_path_of_name_witness :
    outputFile demoLib "Top Interview 150" = "data/top-interview-150-problems.json" ∧
    writes (main demoLib (demoWorld 200 demoBody) ["scraper", "ajpcecv6", "Top Interview 150"]).trace =
      [("data/top-interview-150-problems.json",
        "\x7b\n  \"name\": \"Top Interview 150\",\n  \"problems\": [\n    \x7b\n      \"id\": \"two-sum\",\n" ++
        "      \"name\": \"Two Sum\",\n      \"link\": \"https://leetcode.com/problems/two-sum\",\n" ++
        "      \"difficulty\": \"easy\"\n    \x7d\n  ]\n\x7d")] := by
  have h := output_path_of_name demoLib (demoWorld 200 demoBody) "scraper" "ajpcecv6" "Top Interview 150"
  refine ⟨by rw [h.1]; rfl, ?_⟩
  obtain ⟨data, hd⟩ := h.2.2 rfl
  rw [hd]
  have hd2 : writes (main demoLib (demoWorld 200 demoBody) ["scraper", "ajpcecv6", "Top Interview 150"]).trace =
      [("data/top-interview-150-problems.json",
        "\x7b\n  \"name\": \"Top Interview 150\",\n  \"problems\": [\n    \x7b\n      \"id\": \"two-sum\",\n" ++
        "      \"name\": \"Two Sum\",\n      \"link\": \"https://leetcode.com/problems/two-sum\",\n" ++
        "      \"difficulty\": \"easy\"\n    \x7d\n  ]\n\x7d")] := by rfl
  rw [← hd, hd2]

/-- C3 (amended): when a body is read, then (1) if `json.Unmarshal` stores it
in a `GraphQLResponse` with at least one GraphQL error, the run ends in a
failure whose message is "GraphQL error: " followed by the first error's
message, whatever the data part holds; (2) if `json.Unmarshal` rejects it, the
run ends in "Error parsing response:" followed by that error; in both cases no
effect of the run creates a directory or writes a file. -/
theorem graphql_error_is_fatal (lib : Lib) (w : World) (prog listId name : String)
    (status : Int) (body : String)
    (hrecv : Receives lib w listId status body) :
    (∀ resp, lib.json_Unmarshal body = .ok resp → resp.Errors.len ≥ 1 →
      ∃ first rest, resp.Errors.toList = first :: rest ∧
        (main lib w [prog, listId, name]).exit = .fatal ("GraphQL error: " ++ first.Message) ∧
        (∀ e ∈ (main lib w [prog, listId, name]).trace, e.touchesFiles = false) ∧
        writes (main lib w [prog, listId, name]).trace = []) ∧
    (∀ err, lib.json_Unmarshal body = .error err →
      (main lib w [prog, listId, name]).exit = .fatal ("Error parsing response:" ++ err) ∧
      (∀ e ∈ (main lib w [prog, listId, name]).trace, e.touchesFiles = false) ∧
      writes (main lib w [prog, listId, name]).trace = []) := by
  obtain ⟨jsonBody, req0, h1, h2, h3⟩ := hrecv.elim
  have hpre : ∀ e ∈ [Effect.stdout ("Fetching list: " ++ listId ++ "\n"), Effect.httpDo (setHeaders req0)] ++
      diagnostics status body, e.touchesFiles = false := by
    intro e he
    simp only [List.mem_append, List.mem_cons, List.mem_singleton, List.not_mem_nil, or_false,
      List.cons_append, List.nil_append] at he
    rcases he with rfl | rfl | he
    · rfl
    · rfl
    · unfold diagnostics at he
      split at he
      · simp at he
        rcases he with rfl | rfl <;> rfl
      · simp at he
  constructor
  · intro resp hparse hlen
    have hpos : resp.Errors.len > 0 := hlen
    cases hl : resp.Errors.toList with
    | nil => simp [Slice.len, hl] at hlen
    | cons first rest =>
      refine ⟨first, rest, rfl, ?_, ?_, ?_⟩
      · rw [main_of_response lib w prog listId name jsonBody req0 status body h1 h2 h3]
        simp [hparse, hpos, Slice.index, hl]
      · rw [main_of_response lib w prog listId name jsonBody req0 status body h1 h2 h3]
        simp only [hparse, hpos, if_true]
        exact hpre
      · rw [main_of_response lib w prog listId name jsonBody req0 status body h1 h2 h3]
        simp [hparse, hpos, writes, writes_append, writes_diagnostics]
  · intro err hparse
    rw [main_of_response lib w prog listId name jsonBody req0 status body h1 h2 h3]
    refine ⟨by simp [hparse], ?_, by simp [hparse, writes, writes_append, writes_diagnostics]⟩
    simp only [hparse]
    exact hpre

theorem graphql_error_is_fatal_witness :
    (∃ first rest, demoErrorResponse.Errors.toList = first :: rest ∧
      (main demoLib (demoWorld 200 demoErrorBody) ["scraper", "ajpcecv6", "Blind 75"]).exit =
        .fatal ("GraphQL error: " ++ first.Message) ∧
      (∀ e ∈ (main demoLib (demoWorld 200 demoErrorBody) ["scraper", "ajpcecv6", "Blind 75"]).trace,
        e.touchesFiles = false) ∧
      writes (main demoLib (demoWorld 200 demoErrorBody) ["scraper", "ajpcecv6", "Blind 75"]).trace = []) ∧
    ((main demoLib (demoWorld 502 "<html>Bad Gateway</html>") ["scraper", "ajpcecv6", "Blind 75"]).exit =
        .fatal ("Error parsing response:" ++ "invalid character") ∧
      (∀ e ∈ (main demoLib (demoWorld 502 "<html>Bad Gateway</html>")
          ["scraper", "ajpcecv6", "Blind 75"]).trace, e.touchesFiles = false) ∧
      writes (main demoLib (demoWorld 502 "<html>Bad Gateway</html>")
        ["scraper", "ajpcecv6", "Blind 75"]).trace = []) :=
  ⟨(graphql_error_is_fatal demoLib (demoWorld 200 demoErrorBody) "scraper" "ajpcecv6" "Blind 75" 200
      demoErrorBody (demo_receives _ _ _)).1 demoErrorResponse rfl (by decide),
   (graphql_error_is_fatal demoLib (demoWorld 502 "<html>Bad Gateway</html>") "scraper" "ajpcecv6"
      "Blind 75" 502 "<html>Bad Gateway</html>" (demo_receives _ _ _)).2 "invalid character" rfl⟩

/-- C3 as written fails: `mistypedBody` is the text of a JSON value whose
`errors` array has length 1 and whose first error has the message "list not
found", but with its `data` member a string `json.Unmarshal` returns a type
error, so the run ends in "Error parsing response:" and its message neither is
the GraphQL failure nor contains "list not found". -/
theorem mistyped_data_hides_graphql_error :
    mistypedJson.render = mistypedBody ∧
    mistypedJson.errorsLen = 1 ∧
    mistypedJson.field "errors" = some (.arr [.obj [("message", .str "list not found")]]) ∧
    Receives strictLib (demoWorld 200 mistypedBody) "ajpcecv6" 200 mistypedBody ∧
    strictLib.json_Unmarshal mistypedBody = .error mistypedError ∧
    (main strictLib (demoWorld 200 mistypedBody) ["scraper", "ajpcecv6", "Blind 75"]).exit =
      .fatal ("Error parsing response:" ++ mistypedError) ∧
    (main strictLib (demoWorld 200 mistypedBody) ["scraper", "ajpcecv6", "Blind 75"]).exit ≠
      .fatal ("GraphQL error: " ++ "list not found") ∧
    ¬ ("list not found".data <:+: ("Error parsing response:" ++ mistypedError).data) := by
  refine ⟨by rfl, by rfl, by rfl, by rfl, by rfl, by rfl, by decide, by decide⟩

/-- C4: for every argument vector whose length is not 3 (the program name and
exactly two arguments) the run is the usage failure with an empty trace: no
request is sent and nothing is written; with length 3 the run starts by
printing the list identifier and never ends in the usage failure. -/
theorem usage_iff_bad_argv (lib : Lib) (w : World) (Args : List String) :
    (Args.length ≠ 3 → main lib w Args = { trace := [], exit := .fatal usage }) ∧
    (Args.length = 3 →
      (main lib w Args).exit ≠ .fatal usage ∧
      ∃ rest, (main lib w Args).trace =
        Effect.stdout ("Fetching list: " ++ Args.getD 1 "" ++ "\n") :: rest) := by
  constructor
  · intro h
    simp [main, h]
  · intro h
    match Args, h with
    | [prog, listId, name], _ =>
    cases h1 : lib.json_Marshal (reqBody listId) with
    | error e =>
      rw [main_marshal_error lib w prog listId name e h1]
      exact ⟨fatal_ne_usage _ _ (by decide) (by decide), _, rfl⟩
    | ok jsonBody =>
      cases h2 : lib.http_NewRequest "POST" "https://leetcode.com/graphql" jsonBody with
      | error e =>
        rw [main_request_error lib w prog listId name jsonBody e h1 h2]
        exact ⟨fatal_ne_usage _ _ (by decide) (by decide), _, rfl⟩
      | ok req0 =>
        cases h3 : w.clientDo (setHeaders req0) with
        | error e =>
          rw [main_do_error lib w prog listId name jsonBody req0 e h1 h2 h3]
          exact ⟨fatal_ne_usage _ _ (by decide) (by decide), _, rfl⟩
        | ok resp =>
          obtain ⟨status, rb⟩ := resp
          cases rb with
          | error e =>
            rw [main_read_error lib w prog listId name jsonBody req0 status e h1 h2 h3]
            exact ⟨fatal_ne_usage _ _ (by decide) (by decide), _, rfl⟩
          | ok body =>
            rw [main_of_response lib w prog listId name jsonBody req0 status body h1 h2 h3]
            cases h4 : lib.json_Unmarshal body with
            | error e => exact ⟨fatal_ne_usage _ _ (by decide) (by decide), _, rfl⟩
            | ok resp =>
              by_cases h5 : resp.Errors.len > 0
              · simp only [h5, if_true]
                exact ⟨fatal_ne_usage _ _ (by decide) (by decide), _, rfl⟩
              · cases h6 : w.os_MkdirAll "data" 0o755 with
                | some e =>
                  simp only [h5, h6, if_false]
                  exact ⟨fatal_ne_usage _ _ (by decide) (by decide), _, rfl⟩
                | none =>
                  simp only [h5, h6, json_MarshalIndent, if_false]
                  cases w.os_WriteFile _ _ _ with
                  | some e => exact ⟨fatal_ne_usage _ _ (by decide) (by decide), _, rfl⟩
                  | none => exact ⟨by simp, _, rfl⟩

theorem usage_iff_bad_argv_witness :
    main demoLib offlineWorld ["scraper", "ajpcecv6"] = { trace := [], exit := .fatal usage } ∧
    main demoLib offlineWorld ["scraper", "ajpcecv6", "Blind", "75"] = { trace := [], exit := .fatal usage } ∧
    main demoLib offlineWorld [] = { trace := [], exit := .fatal usage } ∧
    (main demoLib offlineWorld ["scraper", "ajpcecv6", "Blind 75"]).exit ≠ .fatal usage :=
  ⟨(usage_iff_bad_argv demoLib offlineWorld ["scraper", "ajpcecv6"]).1 (by decide),
   (usage_iff_bad_argv demoLib offlineWorld ["scraper", "ajpcecv6", "Blind", "75"]).1 (by decide),
   (usage_iff_bad_argv demoLib offlineWorld []).1 (by decide),
   ((usage_iff_bad_argv demoLib offlineWorld ["scraper", "ajpcecv6", "Blind 75"]).2 rfl).1⟩

/-- C5: two runs with the same list identifier, the same display name and the
same response body, in worlds that may differ in everything else: whatever the
two runs write is the same (path, bytes) pair, and when both return normally
they have made the same single write, so that the file system after the second
run is the file system the first run left. -/
theorem rerun_writes_same_bytes (lib : Lib) (w1 w2 : World) (prog1 prog2 listId name : String)
    (status1 status2 : Int) (body : String) (fs : FS)
    (hrecv1 : Receives lib w1 listId status1 body)
    (hrecv2 : Receives lib w2 listId status2 body) :
    (∀ nd1 ∈ writes (main lib w1 [prog1, listId, name]).trace,
      ∀ nd2 ∈ writes (main lib w2 [prog2, listId, name]).trace, nd1 = nd2) ∧
    ((main lib w1 [prog1, listId, name]).exit = .ok → (main lib w2 [prog2, listId, name]).exit = .ok →
      (∃ data, writes (main lib w1 [prog1, listId, name]).trace = [(outputFile lib name, data)] ∧
        writes (main lib w2 [prog2, listId, name]).trace = [(outputFile lib name, data)]) ∧
      fsAfter (main lib w2 [prog2, listId, name]).trace
          (fsAfter (main lib w1 [prog1, listId, name]).trace fs) =
        fsAfter (main lib w1 [prog1, listId, name]).trace fs) := by
  obtain ⟨hw1, hx1, _⟩ := main_of_receives lib w1 prog1 listId name status1 body hrecv1
  obtain ⟨hw2, hx2, _⟩ := main_of_receives lib w2 prog2 listId name status2 body hrecv2
  rw [hx1, hx2]
  simp only [fsAfter, hw1, hw2]
  rcases processBody_writes lib w1 name body with ⟨e1, x1, _⟩ | ⟨resp1, d1, p1, _, _, m1, e1⟩
  · refine ⟨?_, fun hok => absurd hok x1⟩
    intro nd1 hnd1
    rw [e1] at hnd1
    simp at hnd1
  · rcases processBody_writes lib w2 name body with ⟨e2, x2, _⟩ | ⟨resp2, d2, p2, _, _, m2, e2⟩
    · refine ⟨?_, fun _ hok => absurd hok x2⟩
      intro nd1 _ nd2 hnd2
      rw [e2] at hnd2
      simp at hnd2
    · have hresp : resp1 = resp2 := by
        have := p1.symm.trans p2
        injection this
      subst hresp
      have hd : d1 = d2 := by
        have := m1.symm.trans m2
        injection this
      subst hd
      rw [e1, e2]
      refine ⟨?_, fun _ _ => ⟨⟨d1, rfl, rfl⟩, ?_⟩⟩
      · intro nd1 hnd1 nd2 hnd2
        simp at hnd1 hnd2
        rw [hnd1, hnd2]
      · simp only [List.foldl_cons, List.foldl_nil]
        exact FS.write_write _ _ _

theorem rerun_writes_same_bytes_witness :
    writes (main demoLib (demoWorld 200 demoBody) ["scraper", "ajpcecv6", "Blind 75"]).trace =
      writes (main demoLib (demoWorld 503 demoBody) ["./scraper", "ajpcecv6", "Blind 75"]).trace ∧
    fsAfter (main demoLib (demoWorld 503 demoBody) ["./scraper", "ajpcecv6", "Blind 75"]).trace
        (fsAfter (main demoLib (demoWorld 200 demoBody) ["scraper", "ajpcecv6", "Blind 75"]).trace
          (fun _ => none)) =
      fsAfter (main demoLib (demoWorld 200 demoBody) ["scraper", "ajpcecv6", "Blind 75"]).trace
        (fun _ => none) := by
  have h := rerun_writes_same_bytes demoLib (demoWorld 200 demoBody) (demoWorld 503 demoBody)
    "scraper" "./scraper" "ajpcecv6" "Blind 75" 200 503 demoBody (fun _ => none)
    (demo_receives _ _ _) (demo_receives _ _ _)
  obtain ⟨⟨data, e1, e2⟩, hfs⟩ := h.2 rfl rfl
  exact ⟨by rw [e1, e2], hfs⟩

/-- C6: when a body is read with a status other than 200, the run differs from
the run of the same world with status 200 only by the two diagnostic lines
(status, raw body) printed right after the request: the rest of the trace and
the exit are the same, and a body that does not parse ends the run with the
parse failure. -/
theorem non200_only_adds_diagnostics (lib : Lib) (w : World) (prog listId name : String)
    (status : Int) (body : String)
    (hrecv : Receives lib w listId status body)
    (hs : status ≠ 200) :
    ∃ req post,
      (main lib (w.withStatus 200) [prog, listId, name]).trace =
        [Effect.stdout ("Fetching list: " ++ listId ++ "\n"), Effect.httpDo req] ++ post ∧
      (main lib w [prog, listId, name]).trace =
        [Effect.stdout ("Fetching list: " ++ listId ++ "\n"), Effect.httpDo req] ++
          [Effect.stdout ("Response Status: " ++ fmtInt status ++ "\n"),
           Effect.stdout ("Response Body: " ++ body ++ "\n")] ++ post ∧
      (main lib w [prog, listId, name]).exit = (main lib (w.withStatus 200) [prog, listId, name]).exit ∧
      (∀ err, lib.json_Unmarshal body = .error err →
        (main lib w [prog, listId, name]).exit = .fatal ("Error parsing response:" ++ err)) := by
  obtain ⟨jsonBody, req0, h1, h2, h3⟩ := hrecv.elim
  have h3b : (w.withStatus 200).clientDo (setHeaders req0) = .ok { StatusCode := 200, Body := .ok body } := by
    simp [World.withStatus, h3]
  have hp : processBody lib (w.withStatus 200) name body = processBody lib w name body := rfl
  rw [main_eq_processBody lib w prog listId name jsonBody req0 status body h1 h2 h3,
    main_eq_processBody lib (w.withStatus 200) prog listId name jsonBody req0 200 body h1 h2 h3b, hp]
  refine ⟨setHeaders req0, (processBody lib w name body).trace, ?_, ?_, rfl, ?_⟩
  · simp [diagnostics]
  · simp [diagnostics, hs]
  · intro err herr
    simp [processBody, herr]

theorem non200_only_adds_diagnostics_witness :
    ∃ req post,
      (main demoLib ((demoWorld 503 demoBody).withStatus 200) ["scraper", "ajpcecv6", "Blind 75"]).trace =
        [Effect.stdout ("Fetching list: " ++ "ajpcecv6" ++ "\n"), Effect.httpDo req] ++ post ∧
      (main demoLib (demoWorld 503 demoBody) ["scraper", "ajpcecv6", "Blind 75"]).trace =
        [Effect.stdout ("Fetching list: " ++ "ajpcecv6" ++ "\n"), Effect.httpDo req] ++
          [Effect.stdout ("Response Status: " ++ fmtInt 503 ++ "\n"),
           Effect.stdout ("Response Body: " ++ demoBody ++ "\n")] ++ post ∧
      (main demoLib (demoWorld 503 demoBody) ["scraper", "ajpcecv6", "Blind 75"]).exit =
        (main demoLib ((demoWorld 503 demoBody).withStatus 200) ["scraper", "ajpcecv6", "Blind 75"]).exit ∧
      (∀ err, demoLib.json_Unmarshal demoBody = .error err →
        (main demoLib (demoWorld 503 demoBody) ["scraper", "ajpcecv6", "Blind 75"]).exit =
          .fatal ("Error parsing response:" ++ err)) :=
  non200_only_adds_diagnostics demoLib (demoWorld 503 demoBody) "scraper" "ajpcecv6" "Blind 75" 503
    demoBody (demo_receives _ _ _) (by decide)

/-- C7: two parsed responses without errors and with the same questions (they
may differ in totalLength and hasMore) give, for the same display name, the
same ProblemSet with one problem per question; whatever the two runs write is
the same (path, bytes) pair, both runs write it when the directory can be
created, and each run sends exactly one request. -/
theorem paging_fields_ignored (lib : Lib) (w1 w2 : World) (prog1 prog2 listId1 listId2 name : String)
    (status1 status2 : Int) (body1 body2 : String) (resp1 resp2 : GraphQLResponse)
    (hrecv1 : Receives lib w1 listId1 status1 body1)
    (hrecv2 : Receives lib w2 listId2 status2 body2)
    (hparse1 : lib.json_Unmarshal body1 = .ok resp1)
    (hparse2 : lib.json_Unmarshal body2 = .ok resp2)
    (herr1 : resp1.Errors.len = 0)
    (herr2 : resp2.Errors.len = 0)
    (hq : resp1.Data.FavoriteQuestionList.Questions.toList =
      resp2.Data.FavoriteQuestionList.Questions.toList) :
    buildProblemSet lib name resp1.Data.FavoriteQuestionList.Questions =
      buildProblemSet lib name resp2.Data.FavoriteQuestionList.Questions ∧
    (buildProblemSet lib name resp2.Data.FavoriteQuestionList.Questions).Problems.len =
      resp1.Data.FavoriteQuestionList.Questions.len ∧
    (∀ nd1 ∈ writes (main lib w1 [prog1, listId1, name]).trace,
      ∀ nd2 ∈ writes (main lib w2 [prog2, listId2, name]).trace, nd1 = nd2) ∧
    (w1.os_MkdirAll "data" 0o755 = none → w2.os_MkdirAll "data" 0o755 = none →
      ∃ data,
        json_MarshalIndent lib.encodeString
          (buildProblemSet lib name resp1.Data.FavoriteQuestionList.Questions) = .ok data ∧
        writes (main lib w1 [prog1, listId1, name]).trace = [(outputFile lib name, data)] ∧
        writes (main lib w2 [prog2, listId2, name]).trace = [(outputFile lib name, data)]) ∧
    (requests (main lib w1 [prog1, listId1, name]).trace).length = 1 ∧
    (requests (main lib w2 [prog2, listId2, name]).trace).length = 1 := by
  obtain ⟨hw1, _, hr1⟩ := main_of_receives lib w1 prog1 listId1 name status1 body1 hrecv1
  obtain ⟨hw2, _, hr2⟩ := main_of_receives lib w2 prog2 listId2 name status2 body2 hrecv2
  have hps : buildProblemSet lib name resp1.Data.FavoriteQuestionList.Questions =
      buildProblemSet lib name resp2.Data.FavoriteQuestionList.Questions := by
    rw [buildProblemSet_eq, buildProblemSet_eq, hq]
  rw [hw1, hw2]
  refine ⟨hps, ?_, ?_, ?_, hr1, hr2⟩
  · simp [buildProblemSet_eq, Slice.len, Slice.toList_mk, hq]
  · rcases processBody_writes lib w1 name body1 with ⟨e1, _, _⟩ | ⟨r1, d1, p1, _, _, m1, e1⟩
    · intro nd1 hnd1
      rw [e1] at hnd1
      simp at hnd1
    · rcases processBody_writes lib w2 name body2 with ⟨e2, _, _⟩ | ⟨r2, d2, p2, _, _, m2, e2⟩
      · intro nd1 _ nd2 hnd2
        rw [e2] at hnd2
        simp at hnd2
      · have hr1 : resp1 = r1 := by
          have := hparse1.symm.trans p1
          injection this
        have hr2 : resp2 = r2 := by
          have := hparse2.symm.trans p2
          injection this
        subst hr1 hr2
        have hd : d1 = d2 := by
          rw [hps] at m1
          have := m1.symm.trans m2
          injection this
        subst hd
        intro nd1 hnd1 nd2 hnd2
        rw [e1] at hnd1
        rw [e2] at hnd2
        simp at hnd1 hnd2
        rw [hnd1, hnd2]
  · intro hmk1 hmk2
    rcases processBody_writes lib w1 name body1 with ⟨_, _, n1⟩ | ⟨r1, d1, p1, _, _, m1, e1⟩
    · exact absurd ⟨resp1, hparse1, herr1, hmk1⟩ n1
    · rcases processBody_writes lib w2 name body2 with ⟨_, _, n2⟩ | ⟨r2, d2, p2, _, _, m2, e2⟩
      · exact absurd ⟨resp2, hparse2, herr2, hmk2⟩ n2
      · have hr1 : resp1 = r1 := by
          have := hparse1.symm.trans p1
          injection this
        have hr2 : resp2 = r2 := by
          have := hparse2.symm.trans p2
          injection this
        subst hr1 hr2
        have hd : d1 = d2 := by
          rw [hps] at m1
          have := m1.symm.trans m2
          injection this
        subst hd
        exact ⟨d1, m1, e1, e2⟩

theorem paging_fields_ignored_witness :
    buildProblemSet demoLib "Blind 75" demoResponse.Data.FavoriteQuestionList.Questions =
      buildProblemSet demoLib "Blind 75" demoResponseMore.Data.FavoriteQuestionList.Questions ∧
    demoResponseMore.Data.FavoriteQuestionList.HasMore = true ∧
    writes (main demoLib (demoWorld 200 demoBody) ["scraper", "ajpcecv6", "Blind 75"]).trace =
      writes (main demoLib (demoWorld 200 demoBodyMore) ["scraper", "ajpcecv6", "Blind 75"]).trace ∧
    (requests (main demoLib (demoWorld 200 demoBodyMore) ["scraper", "ajpcecv6", "Blind 75"]).trace).length
      = 1 := by
  have h := paging_fields_ignored demoLib (demoWorld 200 demoBody) (demoWorld 200 demoBodyMore)
    "scraper" "scraper" "ajpcecv6" "ajpcecv6" "Blind 75" 200 200 demoBody demoBodyMore
    demoResponse demoResponseMore (demo_receives _ _ _) (demo_receives _ _ _) rfl rfl rfl rfl rfl
  obtain ⟨data, _, e1, e2⟩ := h.2.2.2.1 rfl rfl
  exact ⟨h.1, rfl, by rw [e1, e2], h.2.2.2.2.2⟩

/-- C9: when a response without GraphQL errors is parsed and its question
list is nil (absent, as in a response without a data field) or empty, and the
directory and the file can be written, the run returns normally; the
ProblemSet has the display name unchanged and a non-nil empty problems slice,
the file written is the object with that name and `"problems": []`, and the
run reports 0 problems. -/
theorem empty_list_writes_empty_array (lib : Lib) (w : World) (prog listId name : String)
    (status : Int) (body : String) (resp : GraphQLResponse)
    (hrecv : Receives lib w listId status body)
    (hparse : lib.json_Unmarshal body = .ok resp)
    (herr : resp.Errors.len = 0)
    (hq : resp.Data.FavoriteQuestionList.Questions.toList = [])
    (hmk : w.os_MkdirAll "data" 0o755 = none)
    (hwr : w.os_WriteFile (outputFile lib name)
      ("\x7b\n  \"name\": " ++ lib.encodeString name ++ ",\n  \"problems\": []\n\x7d") 0o644 = none) :
    (main lib w [prog, listId, name]).exit = .ok ∧
    buildProblemSet lib name resp.Data.FavoriteQuestionList.Questions =
      { Name := name, Problems := .mk [] } ∧
    writes (main lib w [prog, listId, name]).trace =
      [(outputFile lib name,
        "\x7b\n  \"name\": " ++ lib.encodeString name ++ ",\n  \"problems\": []\n\x7d")] ∧
    Effect.stdout ("Successfully scraped 0 problems and saved to " ++ outputFile lib name ++ "\n") ∈
      (main lib w [prog, listId, name]).trace := by
  obtain ⟨jsonBody, req0, h1, h2, h3⟩ := hrecv.elim
  have hps : buildProblemSet lib name resp.Data.FavoriteQuestionList.Questions =
      { Name := name, Problems := .mk [] } := by
    rw [buildProblemSet_eq, hq]; rfl
  have hdata : json_MarshalIndent lib.encodeString { Name := name, Problems := .mk [] } =
      .ok ("\x7b\n  \"name\": " ++ lib.encodeString name ++ ",\n  \"problems\": []\n\x7d") := by
    simp [json_MarshalIndent, marshalProblems, String.append_assoc]
  have hzero : fmtInt ((Slice.mk ([] : List Problem)).len : Int) = "0" := by rfl
  rw [main_of_response lib w prog listId name jsonBody req0 status body h1 h2 h3]
  simp only [hparse, herr, hmk, hps, hdata, hwr, hzero]
  refine ⟨by simp, trivial, ?_, ?_⟩
  · simp [writes, writes_append, writes_diagnostics]
  · simp [String.append_assoc]

theorem empty_list_writes_empty_array_witness :
    (main demoLib (demoWorld 200 "\x7b\x7d") ["scraper", "ajpcecv6", "Blind 75"]).exit = .ok ∧
    buildProblemSet demoLib "Blind 75" GraphQLResponse.zero.Data.FavoriteQuestionList.Questions =
      { Name := "Blind 75", Problems := .mk [] } ∧
    writes (main demoLib (demoWorld 200 "\x7b\x7d") ["scraper", "ajpcecv6", "Blind 75"]).trace =
      [(outputFile demoLib "Blind 75",
        "\x7b\n  \"name\": " ++ demoLib.encodeString "Blind 75" ++ ",\n  \"problems\": []\n\x7d")] ∧
    Effect.stdout ("Successfully scraped 0 problems and saved to " ++ outputFile demoLib "Blind 75" ++ "\n") ∈
      (main demoLib (demoWorld 200 "\x7b\x7d") ["scraper", "ajpcecv6", "Blind 75"]).trace :=
  empty_list_writes_empty_array demoLib (demoWorld 200 "\x7b\x7d") "scraper" "ajpcecv6" "Blind 75" 200
    "\x7b\x7d" GraphQLResponse.zero (demo_receives _ _ _) rfl rfl rfl rfl rfl

/-- C8: the request built for a list identifier has operation name
"favoriteQuestionList"; in its variables favoriteSlug is the identifier
unchanged, limit is 100, skip is 0, searchKeyword is empty and sortBy is
CUSTOM / ASCENDING; every filter of filtersV2 with an operator has operator
"IS" and an empty value list under each other key; the request for another
identifier differs only in the value of favoriteSlug; and every request a run
sends is built from that body, whatever the display name. -/
theorem request_payload_fixed (listId : String) :
    (reqBody listId).OperationName = "favoriteQuestionList" ∧
    (reqBody listId).Variables.lookup "favoriteSlug" = some (.str listId) ∧
    (reqBody listId).Variables.lookup "limit" = some (.int 100) ∧
    (reqBody listId).Variables.lookup "skip" = some (.int 0) ∧
    (reqBody listId).Variables.lookup "searchKeyword" = some (.str "") ∧
    (reqBody listId).Variables.lookup "sortBy" =
      some (.map [("sortField", .str "CUSTOM"), ("sortOrder", .str "ASCENDING")]) ∧
    (∃ filters, (reqBody listId).Variables.lookup "filtersV2" = some (.map filters) ∧
      ∀ key filter, (key, Value.map filter) ∈ filters →
        (filter.lookup "operator").isSome = true →
          filter.lookup "operator" = some (.str "IS") ∧
          ∀ k v, (k, v) ∈ filter → k ≠ "operator" → v = .strs (.mk [])) ∧
    (∀ other : String,
      (reqBody other).Query = (reqBody listId).Query ∧
      (reqBody other).OperationName = (reqBody listId).OperationName ∧
      (reqBody other).Variables =
        (reqBody listId).Variables.map
          (fun kv => if kv.1 = "favoriteSlug" then (kv.1, Value.str other) else kv)) ∧
    (∀ (lib : Lib) (w : World) (prog name : String) (req : HttpRequest),
      req ∈ requests (main lib w [prog, listId, name]).trace →
      ∃ jsonBody req0, lib.json_Marshal (reqBody listId) = .ok jsonBody ∧
        lib.http_NewRequest "POST" "https://leetcode.com/graphql" jsonBody = .ok req0 ∧
        req = setHeaders req0) := by
  refine ⟨rfl, rfl, rfl, rfl, rfl, rfl, ⟨_, rfl, ?_⟩, ?_, ?_⟩
  · intro key filter hmem hop
    simp only [List.mem_cons, Prod.mk.injEq, isFilter, Value.map.injEq, List.mem_singleton,
      List.not_mem_nil, or_false, reduceCtorEq, and_false, false_or] at hmem
    rcases hmem with ⟨_, rfl⟩ | ⟨_, rfl⟩ | ⟨_, rfl⟩ | ⟨_, rfl⟩ | ⟨_, rfl⟩ | ⟨_, rfl⟩ | ⟨_, rfl⟩ |
      ⟨_, rfl⟩ | ⟨_, rfl⟩ | ⟨_, rfl⟩ | ⟨_, rfl⟩
    all_goals first
      | (exfalso; revert hop; decide)
      | (refine ⟨rfl, ?_⟩
         intro k v hkv hk
         simp only [List.mem_cons, Prod.mk.injEq, List.mem_singleton, List.not_mem_nil, or_false] at hkv
         rcases hkv with ⟨_, rfl⟩ | ⟨rfl, _⟩
         · rfl
         · exact absurd rfl hk)
  · intro other
    refine ⟨rfl, rfl, ?_⟩
    simp [reqBody]
  · intro lib w prog name req hreq
    exact requests_main lib w prog listId name req hreq

theorem request_payload_fixed_witness :
    (reqBody "ajpcecv6").Variables.lookup "favoriteSlug" = some (.str "ajpcecv6") ∧
    requests (main demoLib offlineWorld ["scraper", "ajpcecv6", "Blind 75"]).trace =
      [setHeaders { Method := "POST", URL := "https://leetcode.com/graphql", Header := [],
                    Body := "favoriteQuestionList" }] :=
  ⟨(request_payload_fixed "ajpcecv6").2.1, rfl⟩

/-- C10: the output path is not injective in the display name: "Blind 75",
"blind-75" and "blind 75" are distinct names with one output path; when a run
for "Blind 75" and then a run for "blind-75" both return normally, each has
written one file to that path, the first the serialization of a ProblemSet
named "Blind 75" and the second that of one named "blind-75", and afterwards
the path holds the second. -/
theorem output_path_collides (lib : Lib) :
    ("Blind 75" : String) ≠ "blind-75" ∧
    outputFile lib "Blind 75" = outputFile lib "blind-75" ∧
    outputFile lib "Blind 75" = outputFile lib "blind 75" ∧
    ¬ Function.Injective (outputFile lib) ∧
    ∀ (w1 w2 : World) (prog1 prog2 listId1 listId2 : String) (fs : FS),
      (main lib w1 [prog1, listId1, "Blind 75"]).exit = .ok →
      (main lib w2 [prog2, listId2, "blind-75"]).exit = .ok →
      ∃ problemSet1 problemSet2 data1 data2,
        problemSet1.Name = "Blind 75" ∧ problemSet2.Name = "blind-75" ∧
        json_MarshalIndent lib.encodeString problemSet1 = .ok data1 ∧
        json_MarshalIndent lib.encodeString problemSet2 = .ok data2 ∧
        writes (main lib w1 [prog1, listId1, "Blind 75"]).trace = [(outputFile lib "Blind 75", data1)] ∧
        writes (main lib w2 [prog2, listId2, "blind-75"]).trace = [(outputFile lib "Blind 75", data2)] ∧
        fsAfter (main lib w1 [prog1, listId1, "Blind 75"]).trace fs (outputFile lib "Blind 75") =
          some data1 ∧
        fsAfter (main lib w2 [prog2, listId2, "blind-75"]).trace
            (fsAfter (main lib w1 [prog1, listId1, "Blind 75"]).trace fs) (outputFile lib "Blind 75") =
          some data2 := by
  have hne : ("Blind 75" : String) ≠ "blind-75" := by decide
  have hpath : outputFile lib "Blind 75" = outputFile lib "blind-75" := by rfl
  refine ⟨hne, hpath, by rfl, fun hinj => hne (hinj hpath), ?_⟩
  intro w1 w2 prog1 prog2 listId1 listId2 fs hok1 hok2
  obtain ⟨qs1, data1, m1, e1⟩ := writes_of_ok lib w1 prog1 listId1 "Blind 75" hok1
  obtain ⟨qs2, data2, m2, e2⟩ := writes_of_ok lib w2 prog2 listId2 "blind-75" hok2
  rw [← hpath] at e2
  refine ⟨_, _, data1, data2, ?_, ?_, m1, m2, e1, e2, ?_, ?_⟩
  · rw [buildProblemSet_eq]
  · rw [buildProblemSet_eq]
  · simp [fsAfter, e1, FS.write]
  · simp [fsAfter, e1, e2, FS.write]

theorem output_path_collides_witness :
    outputFile demoLib "Blind 75" = "data/blind-75-problems.json" ∧
    outputFile demoLib "blind-75" = "data/blind-75-problems.json" ∧
    fsAfter (main demoLib (demoWorld 200 demoBody) ["scraper", "other", "blind-75"]).trace
        (fsAfter (main demoLib (demoWorld 200 demoBody) ["scraper", "ajpcecv6", "Blind 75"]).trace
          (fun _ => none)) "data/blind-75-problems.json" =
      some ("\x7b\n  \"name\": \"blind-75\",\n  \"problems\": [\n    \x7b\n      \"id\": \"two-sum\",\n" ++
        "      \"name\": \"Two Sum\",\n      \"link\": \"https://leetcode.com/problems/two-sum\",\n" ++
        "      \"difficulty\": \"easy\"\n    \x7d\n  ]\n\x7d") := by
  have h := output_path_collides demoLib
  refine ⟨rfl, h.2.1 ▸ rfl, ?_⟩
  rfl

end Scraper
